import Mathlib

/-!
Verification of the ZenPool mempool-sonification core.

This file shallowly embeds the signal-processing and state-pipeline logic of
the repository in Lean 4 and proves the spec's testable properties against it.

Embedding conventions:
- JavaScript numbers are modelled as rationals (ℚ).  A JavaScript division
  that can produce a non-finite value (x / 0 giving Infinity or NaN) is
  modelled with Option ℚ, where none stands for the non-finite outcome.
- Transaction ids are hex strings; they are modelled as lists of hex digits
  (Fin 16).  String.slice(-4) followed by parseInt(_, 16) becomes taking the
  last four digits and folding them into a natural number.
- Math.log is a fixed pure function on the positive reals; the embedding
  abstracts it as a parameter mlog : ℚ → ℚ.  Theorems that need facts about
  the logarithm assume only monotonicity and mlog DUST < mlog MEGA, which
  hold of the real logarithm on the thresholds used.
- Math.random() draws are passed as explicit ℚ arguments in [0, 1).
- Mutable instance fields of TransactionSoundEngine become an explicit
  EngineState record threaded through the translated methods.
-/

namespace ZenPool

/-- Pentatonic scale table SCALE_FREQUENCIES from TransactionSoundEngine.ts
(20 entries, C3-A3, C4-A4, C5-A5, C6-A6). -/
def SCALE_FREQUENCIES : List ℚ :=
  [130.81, 146.83, 164.81, 196.00, 220.00,
   261.63, 293.66, 329.63, 392.00, 440.00,
   523.25, 587.33, 659.26, 783.99, 880.00,
   1046.50, 1174.66, 1318.51, 1567.98, 1760.00]

namespace VALUE_THRESHOLDS

/-- DUST threshold: 1,000 satoshis, minimum for sound. -/
def DUST : ℚ := 1000

/-- TINY threshold: 10,000 satoshis. -/
def TINY : ℚ := 10000

/-- SMALL threshold: 100,000 satoshis. -/
def SMALL : ℚ := 100000

/-- MEDIUM threshold: 1,000,000 satoshis. -/
def MEDIUM : ℚ := 1000000

/-- LARGE threshold: 10,000,000 satoshis. -/
def LARGE : ℚ := 10000000

/-- WHALE threshold: 100,000,000 satoshis (1 BTC). -/
def WHALE : ℚ := 100000000

/-- MEGA threshold: 1,000,000,000 satoshis (10 BTC). -/
def MEGA : ℚ := 1000000000

end VALUE_THRESHOLDS

namespace ADAPTIVE_CONFIG

/-- Activity measurement window in milliseconds. -/
def activityWindow : ℚ := 2000

/-- Max sounds per second before tiny transactions start being skipped. -/
def maxSoundsPerSecond : ℚ := 20

/-- Max concurrent sounds, to prevent clipping. -/
def maxPolyphony : ℕ := 16

/-- Minimum cooldown between sounds in milliseconds. -/
def minCooldown : ℚ := 30

end ADAPTIVE_CONFIG

/-- A hex digit of a transaction id. -/
abbrev HexDigit := Fin 16

/-- TransactionSoundEvent record from TransactionSoundEngine.ts. -/
structure TransactionSoundEvent where
  txid : List HexDigit
  value : ℚ
  frequency : ℚ
  duration : ℚ
  velocity : ℚ
  timestamp : ℚ
deriving DecidableEq, Repr

/-- Mutable instance state of TransactionSoundEngine: the isEnabled flag,
whether the synth has been initialized (synth non-null), and the bookkeeping
fields recentSounds, soundTimestamps, activeSounds and lastSoundTime. -/
structure EngineState where
  isEnabled : Bool
  synthReady : Bool
  recentSounds : List TransactionSoundEvent
  soundTimestamps : List ℚ
  activeSounds : ℕ
  lastSoundTime : ℚ
deriving DecidableEq, Repr

/-- getActivityLevel: prunes soundTimestamps to the trailing activity window
and returns sounds per second together with the updated state. -/
def getActivityLevel (s : EngineState) (now : ℚ) : ℚ × EngineState :=
  let windowStart := now - ADAPTIVE_CONFIG.activityWindow
  let ts := s.soundTimestamps.filter (fun t => windowStart ≤ t)
  ((ts.length / ADAPTIVE_CONFIG.activityWindow) * 1000,
   { s with soundTimestamps := ts })

/-- The part of shouldPlaySound after the cooldown check: dust filter,
polyphony ceiling, and probabilistic load shedding of tiny transactions.
rShed is the Math.random() draw used by the shedding branch. -/
def shouldPlaySoundRest (s : EngineState) (value : ℚ) (now rShed : ℚ) :
    Bool × EngineState :=
  if value < VALUE_THRESHOLDS.DUST then (false, s)
  else if ADAPTIVE_CONFIG.maxPolyphony ≤ s.activeSounds then
    (decide (VALUE_THRESHOLDS.LARGE ≤ value), s)
  else
    let a := getActivityLevel s now
    if ADAPTIVE_CONFIG.maxSoundsPerSecond < a.1 ∧ value < VALUE_THRESHOLDS.SMALL then
      (decide ((1 : ℚ) / 2 < rShed), a.2)
    else (true, a.2)

/-- shouldPlaySound from TransactionSoundEngine.ts: cooldown check with whale
bypass, then dust filter, polyphony ceiling and probabilistic shedding.
Returns the admission decision and the state after the call (getActivityLevel
prunes soundTimestamps when it runs). -/
def shouldPlaySound (s : EngineState) (value : ℚ) (now rShed : ℚ) :
    Bool × EngineState :=
  if now - s.lastSoundTime < ADAPTIVE_CONFIG.minCooldown then
    if value < VALUE_THRESHOLDS.WHALE then (false, s)
    else shouldPlaySoundRest s value now rShed
  else shouldPlaySoundRest s value now rShed

/-- Claim C2: a transaction below the dust floor is never admitted by
shouldPlaySound, for every engine state, clock value and random draw. -/
theorem dust_never_admitted (s : EngineState) (value now rShed : ℚ)
    (h : value < VALUE_THRESHOLDS.DUST) :
    (shouldPlaySound s value now rShed).1 = false := by
  have hw : value < VALUE_THRESHOLDS.WHALE := by
    have : VALUE_THRESHOLDS.DUST < VALUE_THRESHOLDS.WHALE := by norm_num [VALUE_THRESHOLDS.DUST, VALUE_THRESHOLDS.WHALE]
    linarith
  unfold shouldPlaySound shouldPlaySoundRest
  split
  · simp [hw]
  · simp [h]

/-- Claim C2 witness: a concrete dust transaction (500 satoshis) is rejected
from a concrete state even outside the cooldown window. -/
theorem dust_never_admitted_witness :
    (shouldPlaySound ⟨true, true, [], [], 0, 0⟩ 500 100 0).1 = false :=
  dust_never_admitted ⟨true, true, [], [], 0, 0⟩ 500 100 0 (by decide)

/-- Claim C3: a transaction at or above the whale threshold is always admitted
by shouldPlaySound, for every engine state (in particular inside the cooldown
window, at the polyphony ceiling, and at any activity level) and every random
draw. -/
theorem whale_always_admitted (s : EngineState) (value now rShed : ℚ)
    (h : VALUE_THRESHOLDS.WHALE ≤ value) :
    (shouldPlaySound s value now rShed).1 = true := by
  have hd : ¬ value < VALUE_THRESHOLDS.DUST := by
    have : VALUE_THRESHOLDS.DUST < VALUE_THRESHOLDS.WHALE := by norm_num [VALUE_THRESHOLDS.DUST, VALUE_THRESHOLDS.WHALE]
    linarith
  have hl : VALUE_THRESHOLDS.LARGE ≤ value := by
    have : VALUE_THRESHOLDS.LARGE < VALUE_THRESHOLDS.WHALE := by norm_num [VALUE_THRESHOLDS.LARGE, VALUE_THRESHOLDS.WHALE]
    linarith
  have hs : ¬ value < VALUE_THRESHOLDS.SMALL := by
    have : VALUE_THRESHOLDS.SMALL < VALUE_THRESHOLDS.WHALE := by norm_num [VALUE_THRESHOLDS.SMALL, VALUE_THRESHOLDS.WHALE]
    linarith
  have hrest : (shouldPlaySoundRest s value now rShed).1 = true := by
    unfold shouldPlaySoundRest
    simp only [hd, if_false, hs, and_false, if_false]
    split
    · simp [hl]
    · simp
  unfold shouldPlaySound
  split
  · split
    · next hlt => exact absurd hlt (not_lt.mpr h)
    · exact hrest
  · exact hrest

/-- Claim C3 witness: a concrete 1 BTC transaction is admitted from a state
whose last admitted sound was 0 ms ago (inside the 30 ms cooldown), with the
polyphony ceiling reached. -/
theorem whale_always_admitted_witness :
    (shouldPlaySound ⟨true, true, [], [], 16, 100⟩ 100000000 100 0).1 = true :=
  whale_always_admitted ⟨true, true, [], [], 16, 100⟩ 100000000 100 0 (by decide)

/-- normalizeValue from TransactionSoundEngine.ts: logarithmic normalization
of a value to [0,1] across the DUST..MEGA range.  mlog abstracts Math.log. -/
def normalizeValue (mlog : ℚ → ℚ) (value : ℚ) : ℚ :=
  if value < VALUE_THRESHOLDS.DUST then 0
  else
    (mlog (min value VALUE_THRESHOLDS.MEGA) - mlog VALUE_THRESHOLDS.DUST) /
      (mlog VALUE_THRESHOLDS.MEGA - mlog VALUE_THRESHOLDS.DUST)

/-- Value of the last four hex digits of a transaction id, as in
parseInt(txid.slice(-4), 16). -/
def hexVal4 (txid : List HexDigit) : ℕ :=
  (txid.drop (txid.length - 4)).foldl (fun a d => 16 * a + d.val) 0

/-- JavaScript Math.round on a rational: floor(x + 1/2). -/
def jsRound (x : ℚ) : ℤ := ⌊x + 1 / 2⌋

/-- The scale index selected by getFrequency before micro-detuning: the base
index floor((1 - t) * (scaleSize - 1)) perturbed by the txid hash entropy
offset and clamped into the table bounds. -/
def finalScaleIndex (normalizedValue : ℚ) (txid : List HexDigit) : ℤ :=
  let invertedValue := 1 - normalizedValue
  let baseIndex := ⌊invertedValue * ((SCALE_FREQUENCIES.length : ℚ) - 1)⌋
  let hashEntropy := (hexVal4 txid : ℚ) / 0xFFFF
  let variation := (hashEntropy - 1 / 2) * 2
  let indexOffset := jsRound (variation * 2)
  max 0 (min ((SCALE_FREQUENCIES.length : ℤ) - 1) (baseIndex + indexOffset))

/-- getFrequency from TransactionSoundEngine.ts: the scale frequency at the
selected index times the micro-detuning factor; rDetune is the Math.random()
draw of the detune jitter. -/
def getFrequency (normalizedValue : ℚ) (txid : List HexDigit) (rDetune : ℚ) : ℚ :=
  let baseFreq := SCALE_FREQUENCIES.getD (finalScaleIndex normalizedValue txid).toNat 0
  let detuneFactor := 1 + (rDetune - 1 / 2) * 0.006
  baseFreq * detuneFactor

/-- getDuration from TransactionSoundEngine.ts: base duration 0.1 + t * 1.9
with a ±20% randomized variation (rDur is the Math.random() draw). -/
def getDuration (normalizedValue : ℚ) (rDur : ℚ) : ℚ :=
  let baseDuration := 0.1 + normalizedValue * 1.9
  let variation := 1 + (rDur - 1 / 2) * 0.4
  baseDuration * variation

/-- getVelocity from TransactionSoundEngine.ts: base velocity 0.2 + t * 0.7
with a ±15% randomized variation (rVel is the Math.random() draw), capped at
1 by Math.min. -/
def getVelocity (normalizedValue : ℚ) (rVel : ℚ) : ℚ :=
  let baseVelocity := 0.2 + normalizedValue * 0.7
  let variation := 1 + (rVel - 1 / 2) * 0.3
  min 1 (baseVelocity * variation)

/-- The base scale index chosen inside triggerSound, written as an engine
method: the EngineState parameter mirrors the implicit this of the method
call and is demonstrably never read. -/
def engineBaseScaleIndex (mlog : ℚ → ℚ) (_s : EngineState) (value : ℚ)
    (txid : List HexDigit) : ℤ :=
  finalScaleIndex (normalizeValue mlog value) txid

/-- The frequency computed inside triggerSound for a given detune draw,
written as an engine method with the implicit this made explicit. -/
def engineFrequency (mlog : ℚ → ℚ) (_s : EngineState) (value : ℚ)
    (txid : List HexDigit) (rDetune : ℚ) : ℚ :=
  getFrequency (normalizeValue mlog value) txid rDetune

/-- Claim C1: the base scale index is a pure function of (id, value) — it is
identical across any two engine states (no dependence on lastSoundTime,
activeSounds, timestamps or any other mutable state) and depends on the id
only through its last four hex characters; consequently, for a fixed detune
draw the frequency coincides as well. -/
theorem baseScaleIndex_deterministic (mlog : ℚ → ℚ) (s₁ s₂ : EngineState)
    (value : ℚ) (txid₁ txid₂ : List HexDigit) (rDetune : ℚ)
    (h : txid₁.drop (txid₁.length - 4) = txid₂.drop (txid₂.length - 4)) :
    engineBaseScaleIndex mlog s₁ value txid₁ = engineBaseScaleIndex mlog s₂ value txid₂ ∧
    engineFrequency mlog s₁ value txid₁ rDetune = engineFrequency mlog s₂ value txid₂ rDetune := by
  have hidx : engineBaseScaleIndex mlog s₁ value txid₁ = engineBaseScaleIndex mlog s₂ value txid₂ := by
    unfold engineBaseScaleIndex finalScaleIndex hexVal4
    rw [h]
  refine ⟨hidx, ?_⟩
  unfold engineFrequency getFrequency
  rw [show finalScaleIndex (normalizeValue mlog value) txid₁ =
      finalScaleIndex (normalizeValue mlog value) txid₂ from hidx]

/-- Claim C1 witness: two ids sharing the suffix a3f8 but differing earlier,
evaluated from two different engine states, select the same base index and
the same frequency for a fixed detune draw (mlog instantiated to the
identity, which only affects the common normalized value). -/
theorem baseScaleIndex_deterministic_witness :
    engineBaseScaleIndex id ⟨true, true, [], [], 0, 0⟩ 150000000 [1, 10, 3, 15, 8] =
      engineBaseScaleIndex id ⟨false, false, [], [7], 5, 99⟩ 150000000 [12, 10, 3, 15, 8] ∧
    engineFrequency id ⟨true, true, [], [], 0, 0⟩ 150000000 [1, 10, 3, 15, 8] (1 / 4) =
      engineFrequency id ⟨false, false, [], [7], 5, 99⟩ 150000000 [12, 10, 3, 15, 8] (1 / 4) :=
  baseScaleIndex_deterministic id ⟨true, true, [], [], 0, 0⟩ ⟨false, false, [], [7], 5, 99⟩
    150000000 [1, 10, 3, 15, 8] [12, 10, 3, 15, 8] (1 / 4) (by decide)

/-- The logarithmic normalization lands in [0,1] whenever mlog is monotone
and separates DUST from MEGA, which the real Math.log does. -/
theorem normalizeValue_mem_unitInterval (mlog : ℚ → ℚ) (hmono : Monotone mlog)
    (hsep : mlog VALUE_THRESHOLDS.DUST < mlog VALUE_THRESHOLDS.MEGA) (value : ℚ) :
    0 ≤ normalizeValue mlog value ∧ normalizeValue mlog value ≤ 1 := by
  unfold normalizeValue
  split
  · norm_num
  · next hge =>
    push_neg at hge
    have hmin_lb : VALUE_THRESHOLDS.DUST ≤ min value VALUE_THRESHOLDS.MEGA := by
      refine le_min hge ?_
      norm_num [VALUE_THRESHOLDS.DUST, VALUE_THRESHOLDS.MEGA]
    have hmin_ub : min value VALUE_THRESHOLDS.MEGA ≤ VALUE_THRESHOLDS.MEGA := min_le_right _ _
    have h1 : mlog VALUE_THRESHOLDS.DUST ≤ mlog (min value VALUE_THRESHOLDS.MEGA) := hmono hmin_lb
    have h2 : mlog (min value VALUE_THRESHOLDS.MEGA) ≤ mlog VALUE_THRESHOLDS.MEGA := hmono hmin_ub
    have hden : 0 < mlog VALUE_THRESHOLDS.MEGA - mlog VALUE_THRESHOLDS.DUST := by linarith
    constructor
    · apply div_nonneg _ (le_of_lt hden)
      linarith
    · rw [div_le_one hden]
      linarith

/-- Claim C9: for every transaction value and every variation draw in [0,1),
the emitted velocity lies in [0,1]: the base velocity 0.2 + 0.7 t is scaled
by the ±15% variation and capped at 1, and never falls below 0. -/
theorem velocity_in_unitInterval (mlog : ℚ → ℚ) (hmono : Monotone mlog)
    (hsep : mlog VALUE_THRESHOLDS.DUST < mlog VALUE_THRESHOLDS.MEGA)
    (value rVel : ℚ) (hr0 : 0 ≤ rVel) (hr1 : rVel < 1) :
    0 ≤ getVelocity (normalizeValue mlog value) rVel ∧
      getVelocity (normalizeValue mlog value) rVel ≤ 1 := by
  obtain ⟨ht0, ht1⟩ := normalizeValue_mem_unitInterval mlog hmono hsep value
  set t := normalizeValue mlog value
  unfold getVelocity
  constructor
  · simp only [le_min_iff]
    refine ⟨by norm_num, ?_⟩
    have hbase : (0 : ℚ) ≤ 0.2 + t * 0.7 := by nlinarith
    have hvar : (0 : ℚ) ≤ 1 + (rVel - 1 / 2) * 0.3 := by nlinarith
    positivity
  · exact min_le_left _ _

/-- Claim C9 witness: velocity of a 0.015 BTC transaction with variation draw
1/3, using the identity for mlog (monotone, separating DUST from MEGA), lies
in [0,1]. -/
theorem velocity_in_unitInterval_witness :
    0 ≤ getVelocity (normalizeValue id 1500000) (1 / 3) ∧
      getVelocity (normalizeValue id 1500000) (1 / 3) ≤ 1 :=
  velocity_in_unitInterval id (fun _ _ hab => hab) (by decide) 1500000 (1 / 3)
    (by norm_num) (by norm_num)

/-- JavaScript division as used on numeric feed fields: a zero divisor gives
a non-finite result (Infinity or NaN), modelled as none. -/
def jsDiv (a b : ℚ) : Option ℚ := if b = 0 then none else some (a / b)

/-- Transaction record from types/mempool.ts, as built by processTransaction
in useMempoolSocket.ts.  feeRate is Option ℚ because fee / vsize is a
JavaScript division that is non-finite when vsize = 0. -/
structure Transaction where
  txid : List HexDigit
  value : ℚ
  vsize : ℚ
  fee : ℚ
  feeRate : Option ℚ
  timestamp : ℚ
deriving DecidableEq, Repr

/-- The record construction inside processTransaction in useMempoolSocket.ts:
feeRate is computed as fee / vsize with no guard on vsize. -/
def processTransactionRecord (txid : List HexDigit) (fee vsize value now : ℚ) :
    Transaction :=
  { txid := txid
    value := value
    vsize := vsize
    fee := fee
    feeRate := jsDiv fee vsize
    timestamp := now }

/-- BUFFER_WINDOW from useMempoolSocket.ts: 5 seconds of transactions. -/
def BUFFER_WINDOW : ℚ := 5000

/-- normalizeFlowRate from useMempoolSocket.ts: linear normalization of a
vBytes/second rate to a stress level, clamped to [0,1] by Math.max/Math.min
with MIN_FLOW = 500 and MAX_FLOW = 50000. -/
def normalizeFlowRate (vBytesPerSecond : ℚ) : ℚ :=
  let MIN_FLOW : ℚ := 500
  let MAX_FLOW : ℚ := 50000
  let normalized := (vBytesPerSecond - MIN_FLOW) / (MAX_FLOW - MIN_FLOW)
  max 0 (min 1 normalized)

/-- calculateFlowRate from useMempoolSocket.ts: prunes the buffer to the
trailing BUFFER_WINDOW, sums vsizes, converts to vBytes/second, and derives
the stress level.  Returns (flowRate, stressLevel, pruned buffer). -/
def calculateFlowRate (buffer : List Transaction) (now : ℚ) :
    ℚ × ℚ × List Transaction :=
  let windowStart := now - BUFFER_WINDOW
  let recentTxs := buffer.filter (fun tx => windowStart ≤ tx.timestamp)
  let totalVBytes := (recentTxs.map (fun tx => tx.vsize)).foldl (· + ·) 0
  let flowRate := totalVBytes / BUFFER_WINDOW * 1000
  (flowRate, normalizeFlowRate flowRate, recentTxs)

/-- Claim C4: for every input flow rate the congestion scalar equals
clamp((rate - 500) / (50000 - 500), 0, 1) and lies in [0,1], and an empty
sample window yields flow rate 0 and scalar 0. -/
theorem congestion_scalar_clamped (rate now : ℚ) :
    normalizeFlowRate rate = max 0 (min 1 ((rate - 500) / (50000 - 500))) ∧
    0 ≤ normalizeFlowRate rate ∧ normalizeFlowRate rate ≤ 1 ∧
    (calculateFlowRate [] now).1 = 0 ∧ (calculateFlowRate [] now).2.1 = 0 := by
  refine ⟨rfl, le_max_left 0 _, ?_, ?_, ?_⟩
  · exact max_le (by norm_num) (min_le_left 1 _)
  · simp [calculateFlowRate]
  · simp only [calculateFlowRate, normalizeFlowRate, List.filter_nil, List.map_nil,
      List.foldl_nil, zero_div, zero_mul]
    norm_num

/-- Claim C6 counterexample: the claim says a zero virtual size yields
feeRate 0, but processTransaction divides unguarded, so vsize = 0 yields a
non-finite feeRate (none in the model), which is not 0. -/
theorem feeRate_zero_vsize_counterexample :
    (processTransactionRecord [] 100 0 5000 0).feeRate = none ∧
      (processTransactionRecord [] 100 0 5000 0).feeRate ≠ some 0 := by
  constructor
  · rfl
  · intro hcontra
    simp [processTransactionRecord, jsDiv] at hcontra

/-- Claim C6 amended: the fee-rate computation is not guarded; for every
ingested event with vsize = 0 the derived feeRate is the non-finite value
(none), not 0, while ingestion itself does not fail (a record is still
produced with all other fields intact). -/
theorem feeRate_zero_vsize_unguarded (txid : List HexDigit) (fee value now : ℚ) :
    (processTransactionRecord txid fee 0 value now).feeRate = none ∧
    (processTransactionRecord txid fee 0 value now).value = value ∧
    (processTransactionRecord txid fee 0 value now).timestamp = now := by
  refine ⟨?_, rfl, rfl⟩
  simp [processTransactionRecord, jsDiv]

/-- MAX_PARTICLES from ParticleVisualizer.tsx. -/
def MAX_PARTICLES : ℕ := 300

/-- GRAVITY from ParticleVisualizer.tsx. -/
def GRAVITY : ℚ := 0.15

/-- Particle record from ParticleVisualizer.tsx.  color carries the hex color
string chosen by getFeeColor; feeRate is Option ℚ as in Transaction. -/
structure Particle where
  id : List HexDigit
  x : ℚ
  y : ℚ
  vx : ℚ
  vy : ℚ
  size : ℚ
  color : String
  alpha : ℚ
  settled : Bool
  value : ℚ
  feeRate : Option ℚ
deriving DecidableEq, Repr

/-- Container dimensions record kept in containerRef. -/
structure Container where
  x : ℚ
  y : ℚ
  width : ℚ
  height : ℚ
  bottom : ℚ
deriving DecidableEq, Repr

/-- getFeeColor from ParticleVisualizer.tsx: discrete color bands from low to
high fee rate. -/
def getFeeColor (feeRate : ℚ) : String :=
  if feeRate < 5 then "#3B82F6"
  else if feeRate < 15 then "#14B8A6"
  else if feeRate < 30 then "#22C55E"
  else if feeRate < 50 then "#EAB308"
  else if feeRate < 100 then "#F97316"
  else "#EF4444"

/-- getFeeColor applied to a possibly non-finite fee rate: in JavaScript both
Infinity and NaN fail every < comparison and fall through to the last band. -/
def getFeeColorOpt : Option ℚ → String
  | none => "#EF4444"
  | some q => getFeeColor q

/-- getParticleSize from ParticleVisualizer.tsx: transaction value to radius. -/
def getParticleSize (value : ℚ) : ℚ :=
  let btc := value / 100000000
  if 10 ≤ btc then 12
  else if 1 ≤ btc then 8
  else if 1 / 10 ≤ btc then 5
  else if 1 / 100 ≤ btc then 3
  else 2

/-- The particle literal built by spawnParticle: random spawn x within the
container width (rx is the Math.random() draw), y just above the container,
random drift velocities (rvx, rvy draws), size and color derived from the
transaction. -/
def mkParticle (tx : Transaction) (c : Container) (rx rvx rvy : ℚ) : Particle :=
  { id := tx.txid
    x := c.x + rx * c.width
    y := c.y - 20
    vx := (rvx - 1 / 2) * 1
    vy := rvy * 2 + 1
    size := getParticleSize tx.value
    color := getFeeColorOpt tx.feeRate
    alpha := 0.8
    settled := false
    value := tx.value
    feeRate := tx.feeRate }

/-- The cap enforcement at the end of spawnParticle: when the list exceeds
MAX_PARTICLES, remove the oldest settled particle (all entries sharing its
id, via Array.filter) or, if none is settled, shift off the oldest overall. -/
def evictOverCap (ps : List Particle) : List Particle :=
  if MAX_PARTICLES < ps.length then
    match ps.filter (fun p => p.settled) with
    | [] => ps.tail
    | q :: _ => ps.filter (fun r => r.id ≠ q.id)
  else ps

/-- spawnParticle from ParticleVisualizer.tsx: push the new particle, then
enforce the cap. -/
def spawnParticle (ps : List Particle) (tx : Transaction) (c : Container)
    (rx rvx rvy : ℚ) : List Particle :=
  evictOverCap (ps ++ [mkParticle tx c rx rvx rvy])

theorem length_filter_lt_of_mem {α : Type} (p : α → Bool) {l : List α} {a : α}
    (ha : a ∈ l) (hpa : p a = false) : (l.filter p).length < l.length := by
  induction l with
  | nil => cases ha
  | cons x xs ih =>
    rcases List.mem_cons.mp ha with h | h
    · subst h
      rw [List.filter_cons, hpa]
      simp only [List.length_cons]
      exact Nat.lt_succ_of_le (List.length_filter_le p xs)
    · rw [List.filter_cons]
      cases hx : p x with
      | false =>
        simp only [List.length_cons]
        exact Nat.lt_succ_of_le (Nat.le_of_lt (ih h))
      | true =>
        simp only [List.length_cons]
        exact Nat.succ_lt_succ (ih h)

theorem evictOverCap_length {ps : List Particle} (h : ps.length ≤ MAX_PARTICLES + 1) :
    (evictOverCap ps).length ≤ MAX_PARTICLES := by
  unfold evictOverCap
  split
  · next hgt =>
    split
    · next hnone =>
      cases ps with
      | nil => simp at hgt
      | cons x xs => simpa using Nat.le_of_succ_le_succ h
    · next q rest hsettled =>
      have hq : q ∈ ps := by
        have : q ∈ ps.filter (fun p => p.settled) := by
          rw [hsettled]; exact List.mem_cons_self q rest
        exact List.mem_of_mem_filter this
      have hpa : (fun r => decide (r.id ≠ q.id)) q = false := by simp
      have := length_filter_lt_of_mem (fun r => decide (r.id ≠ q.id)) hq hpa
      omega
  · next hle => omega

theorem spawnParticle_preserves_cap {ps : List Particle} (tx : Transaction)
    (c : Container) (rx rvx rvy : ℚ) (h : ps.length ≤ MAX_PARTICLES) :
    (spawnParticle ps tx c rx rvx rvy).length ≤ MAX_PARTICLES := by
  apply evictOverCap_length
  simp only [List.length_append, List.length_cons, List.length_nil]
  omega

/-- Claim C5: starting from any particle list within the cap, every sequence
of spawnParticle calls keeps the live particle count at or below
MAX_PARTICLES after each spawn; moreover whenever the cap is exceeded the
oldest settled particle is the one evicted, and the oldest particle overall
is evicted when none is settled. -/
theorem particle_count_bounded :
    (∀ (init : List Particle) (spawns : List (Transaction × ℚ × ℚ × ℚ)) (c : Container),
      init.length ≤ MAX_PARTICLES →
      (spawns.foldl (fun ps sp => spawnParticle ps sp.1 c sp.2.1 sp.2.2.1 sp.2.2.2)
        init).length ≤ MAX_PARTICLES) ∧
    (∀ (ps : List Particle) (q : Particle) (rest : List Particle),
      MAX_PARTICLES < ps.length → ps.filter (fun p => p.settled) = q :: rest →
      evictOverCap ps = ps.filter (fun r => r.id ≠ q.id)) ∧
    (∀ ps : List Particle,
      MAX_PARTICLES < ps.length → ps.filter (fun p => p.settled) = [] →
      evictOverCap ps = ps.tail) := by
  refine ⟨?_, ?_, ?_⟩
  · intro init spawns c hinit
    induction spawns generalizing init with
    | nil => exact hinit
    | cons sp rest ih =>
      exact ih _ (spawnParticle_preserves_cap sp.1 c sp.2.1 sp.2.2.1 sp.2.2.2 hinit)
  · intro ps q rest hgt hfilter
    unfold evictOverCap
    rw [if_pos hgt, hfilter]
  · intro ps hgt hfilter
    unfold evictOverCap
    rw [if_pos hgt, hfilter]

/-- Claim C5 witness: spawning two concrete transactions into an empty list
inside a concrete container leaves the count within the cap. -/
theorem particle_count_bounded_witness :
    (([(⟨[3], 5000, 250, 100, some (2 / 5), 0⟩, 1 / 2, 1 / 2, 1 / 2),
       (⟨[4], 7000, 140, 280, some 2, 1⟩, 1 / 4, 1 / 4, 1 / 4)] :
        List (Transaction × ℚ × ℚ × ℚ)).foldl
      (fun ps sp => spawnParticle ps sp.1 ⟨40, 40, 400, 400, 440⟩ sp.2.1 sp.2.2.1 sp.2.2.2)
      []).length ≤ MAX_PARTICLES :=
  particle_count_bounded.1 []
    [(⟨[3], 5000, 250, 100, some (2 / 5), 0⟩, 1 / 2, 1 / 2, 1 / 2),
     (⟨[4], 7000, 140, 280, some 2, 1⟩, 1 / 4, 1 / 4, 1 / 4)]
    ⟨40, 40, 400, 400, 440⟩ (by decide)

/-- Block-event session state of ParticleVisualizer: blockEventRef (whether a
block animation is active) and blockAnimationProgress. -/
structure BlockSession where
  active : Bool
  progress : ℚ
deriving DecidableEq, Repr

/-- The block-event useEffect of ParticleVisualizer.tsx: on a delivered block
event, activate and reset progress to 0 only when not already active. -/
def deliverBlockEvent (isBlockEvent : Bool) (s : BlockSession) : BlockSession :=
  if isBlockEvent && !s.active then { active := true, progress := 0 } else s

/-- Claim C7: delivering a block event while the session is already active
changes nothing (progress is not reset, the animation is not restarted); the
transition that resets progress to 0 fires exactly when the session is not
active. -/
theorem block_session_exclusive (s : BlockSession) :
    (s.active = true → deliverBlockEvent true s = s) ∧
    (s.active = false → deliverBlockEvent true s = { active := true, progress := 0 }) := by
  constructor
  · intro h
    unfold deliverBlockEvent
    rw [h]
    rfl
  · intro h
    unfold deliverBlockEvent
    rw [h]
    rfl

/-- Claim C7 witness: a second block event delivered to an active session
with progress 1/2 leaves the session unchanged. -/
theorem block_session_exclusive_witness :
    deliverBlockEvent true ⟨true, 1 / 2⟩ = ⟨true, 1 / 2⟩ :=
  (block_session_exclusive ⟨true, 1 / 2⟩).1 rfl

/-- One particle update of the converging phase of the block animation:
positions interpolate toward the container center and alpha decays. -/
def blockConvergeParticle (centerX centerY progress : ℚ) (p : Particle) : Particle :=
  { p with
    x := p.x + (centerX - p.x) * 0.1 * progress
    y := p.y + (centerY - p.y) * 0.1 * progress
    alpha := max 0 (p.alpha - 0.02) }

/-- The block-event branch of the animate loop in ParticleVisualizer.tsx:
progress advances by 0.02; below 1 the particles converge to the container
center, between 1 and 2 they fade out, and at 2 the set is cleared and the
session resets.  Returns the new progress (paired with whether the session
stays active) and the particle list. -/
def blockAnimStep (c : Container) (progress : ℚ) (ps : List Particle) :
    (ℚ × Bool) × List Particle :=
  let pr := progress + 0.02
  if pr < 1 then
    let centerX := c.x + c.width / 2
    let centerY := c.y + c.height / 2
    ((pr, true), ps.map (blockConvergeParticle centerX centerY pr))
  else if pr < 2 then
    ((pr, true), ps.map (fun p => { p with alpha := max 0 (1 - (pr - 1)) }))
  else ((0, false), [])

/-- findSettleY from ParticleVisualizer.tsx: the floor of the container or
the top surface of the nearest settled particle overlapping horizontally,
clamped away from the container top. -/
def findSettleY (p : Particle) (ps : List Particle) (c : Container) : ℚ :=
  let s := ps.foldl
    (fun settleY other =>
      if other.id = p.id ∨ other.settled = false then settleY
      else if |p.x - other.x| < p.size + other.size ∧ other.y - other.size < settleY then
        other.y - other.size
      else settleY)
    c.bottom
  let minY := c.y + p.size * 2
  if s < minY then minY else s

/-- The body of the normal physics update of the animate loop for one
particle that is not yet settled: gravity, stress-scaled drift (r is the
Math.random() draw), integration, damped wall bounce, settling against the
floor or the pile, and velocity damping. -/
def updateUnsettled (c : Container) (stress r : ℚ) (ps : List Particle)
    (p : Particle) : Particle :=
  let vy1 := p.vy + GRAVITY
  let vx1 := p.vx + (r - 1 / 2) * 0.1 * stress
  let x1 := p.x + vx1
  let y1 := p.y + vy1
  let bounceL := if x1 < c.x + p.size then (c.x + p.size, vx1 * (-(1 / 2))) else (x1, vx1)
  let bounceR :=
    if c.x + c.width - p.size < bounceL.1 then
      (c.x + c.width - p.size, bounceL.2 * (-(1 / 2)))
    else bounceL
  let pMoved := { p with x := bounceR.1, y := y1, vx := bounceR.2, vy := vy1 }
  let settleY := findSettleY pMoved ps c
  let pSettled :=
    if settleY - pMoved.size ≤ pMoved.y then
      let vxs := pMoved.vx * 0.8
      { pMoved with
        y := settleY - pMoved.size
        vy := 0
        vx := vxs
        settled := decide (|vxs| < 1 / 10) || pMoved.settled }
    else pMoved
  { pSettled with vx := pSettled.vx * 0.99, vy := pSettled.vy * 0.99 }

/-- One particle step of the normal (non-block) physics update: a settled
particle is skipped entirely (the loop continues over it). -/
def normalTickParticle (c : Container) (stress r : ℚ) (ps : List Particle)
    (p : Particle) : Particle :=
  if p.settled then p else updateUnsettled c stress r ps p

/-- Claim C8 counterexample: during the block-event convergence phase a
settled particle is moved toward the container center while its settled flag
stays true, so its vertical position can decrease.  A settled particle at
y = 400 in a 400-high container (center y = 240) moves to y = 391.68 on the
tick taking progress from 0.5 to 0.52. -/
theorem settled_y_decreases_counterexample :
    ((blockAnimStep ⟨40, 40, 400, 400, 440⟩ (1 / 2)
        [⟨[1], 240, 400, 0, 0, 5, "#3B82F6", 1 / 2, true, 5000, some 1⟩]).2.headD
      ⟨[1], 240, 400, 0, 0, 5, "#3B82F6", 1 / 2, true, 5000, some 1⟩).y < 400 ∧
    ((blockAnimStep ⟨40, 40, 400, 400, 440⟩ (1 / 2)
        [⟨[1], 240, 400, 0, 0, 5, "#3B82F6", 1 / 2, true, 5000, some 1⟩]).2.headD
      ⟨[1], 240, 400, 0, 0, 5, "#3B82F6", 1 / 2, true, 5000, some 1⟩).settled = true := by
  constructor
  · norm_num [blockAnimStep, blockConvergeParticle]
  · norm_num [blockAnimStep, blockConvergeParticle]

/-- Claim C8 amended: on every tick of the normal (non-block) physics update
a settled particle is skipped entirely, so its vertical position is
unchanged and in particular never decreases; only the block-event
convergence animation moves settled particles. -/
theorem settled_fixed_on_normal_tick (c : Container) (stress r : ℚ)
    (ps : List Particle) (p : Particle) (h : p.settled = true) :
    normalTickParticle c stress r ps p = p ∧
      p.y ≤ (normalTickParticle c stress r ps p).y := by
  have hfix : normalTickParticle c stress r ps p = p := by
    unfold normalTickParticle
    rw [h]
    rfl
  exact ⟨hfix, le_of_eq (congrArg Particle.y hfix.symm)⟩

/-- Claim C8 amended witness: a concrete settled particle is left exactly in
place by a concrete normal physics tick. -/
theorem settled_fixed_on_normal_tick_witness :
    normalTickParticle ⟨40, 40, 400, 400, 440⟩ (1 / 2) (1 / 3) []
        ⟨[2], 100, 435, 0, 0, 5, "#EF4444", 4 / 5, true, 5000, some 1⟩ =
      ⟨[2], 100, 435, 0, 0, 5, "#EF4444", 4 / 5, true, 5000, some 1⟩ ∧
    (⟨[2], 100, 435, 0, 0, 5, "#EF4444", 4 / 5, true, 5000, some 1⟩ : Particle).y ≤
      (normalTickParticle ⟨40, 40, 400, 400, 440⟩ (1 / 2) (1 / 3) []
        ⟨[2], 100, 435, 0, 0, 5, "#EF4444", 4 / 5, true, 5000, some 1⟩).y :=
  settled_fixed_on_normal_tick ⟨40, 40, 400, 400, 440⟩ (1 / 2) (1 / 3) []
    ⟨[2], 100, 435, 0, 0, 5, "#EF4444", 4 / 5, true, 5000, some 1⟩ rfl

/-- triggerSound from TransactionSoundEngine.ts: gate on the synth being
initialized and the engine being enabled, run the admission check, and on
admission record lastSoundTime, bump activeSounds, push the activity
timestamp, and append the emitted event to the recentSounds ring buffer
(trimmed to 30 by shifting).  The rShed, rDetune, rDur and rVel arguments
are the Math.random() draws used along the way; the timed activeSounds
decrement scheduled via setTimeout is a separate later event and not part of
this call. -/
def triggerSound (mlog : ℚ → ℚ) (s : EngineState) (txid : List HexDigit)
    (value now rShed rDetune rDur rVel : ℚ) :
    Option TransactionSoundEvent × EngineState :=
  if !s.synthReady || !s.isEnabled then (none, s)
  else
    let ok := shouldPlaySound s value now rShed
    if ok.1 then
      let s1 := { ok.2 with lastSoundTime := now }
      let normalizedValue := normalizeValue mlog value
      let frequency := getFrequency normalizedValue txid rDetune
      let duration := getDuration normalizedValue rDur
      let velocity := getVelocity normalizedValue rVel
      let s2 := { s1 with
        activeSounds := s1.activeSounds + 1
        soundTimestamps := s1.soundTimestamps ++ [now] }
      let event : TransactionSoundEvent :=
        ⟨txid, value, frequency, duration, velocity, now⟩
      let rs := s2.recentSounds ++ [event]
      let rs2 := if 30 < rs.length then rs.tail else rs
      (some event, { s2 with recentSounds := rs2 })
    else (none, ok.2)

theorem shouldPlaySound_preserves (s : EngineState) (value now rShed : ℚ) :
    (shouldPlaySound s value now rShed).2.lastSoundTime = s.lastSoundTime ∧
    (shouldPlaySound s value now rShed).2.activeSounds = s.activeSounds ∧
    (shouldPlaySound s value now rShed).2.recentSounds = s.recentSounds := by
  unfold shouldPlaySound shouldPlaySoundRest getActivityLevel
  dsimp only
  split_ifs <;> exact ⟨rfl, rfl, rfl⟩

/-- Claim C10: a triggerSound call that returns null (engine gated off or the
admission check rejecting) leaves lastSoundTime, activeSounds and the
recentSounds ring buffer exactly as they were before the call. -/
theorem rejected_call_preserves_state (mlog : ℚ → ℚ) (s : EngineState)
    (txid : List HexDigit) (value now rShed rDetune rDur rVel : ℚ)
    (h : (triggerSound mlog s txid value now rShed rDetune rDur rVel).1 = none) :
    (triggerSound mlog s txid value now rShed rDetune rDur rVel).2.lastSoundTime =
        s.lastSoundTime ∧
    (triggerSound mlog s txid value now rShed rDetune rDur rVel).2.activeSounds =
        s.activeSounds ∧
    (triggerSound mlog s txid value now rShed rDetune rDur rVel).2.recentSounds =
        s.recentSounds := by
  unfold triggerSound at h ⊢
  by_cases hgate : (!s.synthReady || !s.isEnabled) = true
  · rw [if_pos hgate]
    exact ⟨rfl, rfl, rfl⟩
  · rw [if_neg hgate] at h ⊢
    dsimp only at h ⊢
    by_cases hok : (shouldPlaySound s value now rShed).1 = true
    · rw [if_pos hok] at h
      simp at h
    · rw [if_neg hok] at h ⊢
      exact shouldPlaySound_preserves s value now rShed

/-- Claim C10 witness: a call on a disabled engine returns null and leaves
the three observable fields of a concrete state untouched. -/
theorem rejected_call_preserves_state_witness :
    (triggerSound id ⟨false, true, [], [5], 3, 7⟩ [9] 5000 100 0 0 0 0).2.lastSoundTime =
        (⟨false, true, [], [5], 3, 7⟩ : EngineState).lastSoundTime ∧
    (triggerSound id ⟨false, true, [], [5], 3, 7⟩ [9] 5000 100 0 0 0 0).2.activeSounds =
        (⟨false, true, [], [5], 3, 7⟩ : EngineState).activeSounds ∧
    (triggerSound id ⟨false, true, [], [5], 3, 7⟩ [9] 5000 100 0 0 0 0).2.recentSounds =
        (⟨false, true, [], [5], 3, 7⟩ : EngineState).recentSounds :=
  rejected_call_preserves_state id ⟨false, true, [], [5], 3, 7⟩ [9] 5000 100 0 0 0 0 rfl

end ZenPool
